import Mathlib

/-!
Shallow embedding of `src/90d-Engagment.py`, a batch job that reads subject
records from a tabular store, resolves each record's channel to its uploads
playlist, collects video ids published within a trailing window, fetches
statistics in batches of 50, averages view/like/comment counts over the
long-form (≥180 s) subset, and writes the three averages back.

External HTTP calls are modelled as oracles: each call site consumes a
response value describing what the remote service returned (or that the
request failed in transit).  Python exceptions that the code does not catch
are modelled with `Except Unit`; exceptions the code catches are folded into
the response data.  The caught paths are the `KeyError` branches (`Option`
fields) and the transport failures (`err` constructors).  The uncaught
paths are modelled explicitly: a first channel item missing its nested keys
(`KeyError` past the `RequestException` handler), a malformed publish
timestamp (`ParserError` past the `except KeyError`), a malformed ISO-8601
duration (`is_longform` has no handler), a non-numeric statistics count
(`ValueError` from `int(...)`), and an overflowing average.

Python's `int(sum(l) / len(l))` is float true division followed by
truncation toward zero.  It is modelled exactly: the true rational quotient
is rounded to 53 significant bits (round to nearest, ties to even), the
rounded value is truncated toward zero, and a rounded quotient of `2 ^ 1024`
or more raises an uncaught `OverflowError`.
-/

namespace Engagement

/-- The global `ERROR_LIMIT` constant (line 31 of the source). -/
def ERROR_LIMIT : Nat := 10

/-- One row of the tabular store, as the driver sees it:
`record['id']` and `record['fields'].get('YouTube Channel ID')`
(`none` models a missing key). -/
structure AirtableRecord where
  id : String
  channelId : Option String
deriving Repr, DecidableEq

/-- One response of the paginated record-store read: either a transport
failure (`RequestException`) or a page of records together with whether an
`offset` continuation token was present. -/
inductive StoreResp where
  | err : StoreResp
  | ok (records : List AirtableRecord) (hasOffset : Bool) : StoreResp
deriving Repr, DecidableEq

/-- `get_airtable_records` (lines 35-57): follow pagination, extending the
accumulated list; a transport failure stops pagination and returns what was
accumulated so far.  The error counter is never touched here. -/
def get_airtable_records : List StoreResp → List AirtableRecord
  | [] => []
  | .err :: _ => []
  | .ok recs more :: rest =>
      recs ++ (if more then get_airtable_records rest else [])

/-- One response of the channel lookup: a transport failure (caught and
counted); an empty `items` list (the function returns `None`); a first item
missing one of `contentDetails`/`relatedPlaylists`/`uploads`, whose
`KeyError` is not caught by the `except requests.RequestException` handler
and escapes; or the uploads playlist id. -/
inductive ChannelResp where
  | err : ChannelResp
  | noItems : ChannelResp
  | malformedItem : ChannelResp
  | found (uploads : String) : ChannelResp
deriving Repr, DecidableEq

/-- `get_uploads_playlist_id` (lines 60-81): the playlist id or `None`,
paired with the increment applied to the global error counter (1 exactly on
a transport failure); a malformed first item raises out of the function. -/
def get_uploads_playlist_id : ChannelResp → Except Unit (Option String × Nat)
  | .err => .ok (none, 1)
  | .noItems => .ok (none, 0)
  | .malformedItem => .error ()
  | .found u => .ok (some u, 0)

/-- The parse outcome of `item['contentDetails']['videoPublishedAt']`:
the key may be missing (`KeyError`, caught by the `except KeyError`), the
value may be a malformed timestamp (`parser.parse` raises `ParserError`,
which the `except KeyError` does not catch), or a parsed instant. -/
inductive TimestampField where
  | missing : TimestampField
  | malformed : TimestampField
  | parsed (t : Int) : TimestampField
deriving Repr, DecidableEq

/-- One item of a playlist page: the publish timestamp field and
`item['contentDetails']['videoId']` (`none` models the caught KeyError). -/
structure PlaylistItem where
  publishedAt : TimestampField
  videoId : Option String
deriving Repr, DecidableEq

/-- One response of the playlist-items endpoint: transport failure, or a
page of items together with whether a `nextPageToken` was present. -/
inductive PageResponse where
  | err : PageResponse
  | ok (items : List PlaylistItem) (next : Bool) : PageResponse
deriving Repr, DecidableEq

/-- The inner per-page loop of `get_recent_video_ids` (lines 110-118):
collect, in order, the ids of items published at or after the cutoff,
together with the `recent_videos_found_in_page` flag.  An item missing the
timestamp key is skipped; a malformed timestamp raises out of the whole
pagination; an item that qualifies but is missing `videoId` raises
`KeyError` before the flag is set, so it is skipped. -/
def pageCollect (cutoff : Int) : List PlaylistItem → Except Unit (List String × Bool)
  | [] => .ok ([], false)
  | it :: rest =>
      match it.publishedAt with
      | .missing => pageCollect cutoff rest
      | .malformed => .error ()
      | .parsed t =>
          if cutoff ≤ t then
            match it.videoId with
            | none => pageCollect cutoff rest
            | some v =>
                match pageCollect cutoff rest with
                | .error e => .error e
                | .ok r => .ok (v :: r.1, true)
          else pageCollect cutoff rest

/-- The page loop of `get_recent_video_ids` (lines 91-127), consuming
successive page responses: a transport failure stops pagination (counting
one error) and returns what was accumulated; a page with items but no
qualifying item stops pagination; otherwise pagination continues while a
next-page token is present.  A malformed timestamp raises out of the loop,
discarding the ids collected so far. -/
def recentGo (cutoff : Int) : List PageResponse → Except Unit (List String × Nat)
  | [] => .ok ([], 0)
  | .err :: _ => .ok ([], 1)
  | .ok items next :: rest =>
      match pageCollect cutoff items with
      | .error e => .error e
      | .ok p =>
          if p.2 = false ∧ items ≠ [] then .ok (p.1, 0)
          else if next then
            match recentGo cutoff rest with
            | .error e => .error e
            | .ok r => .ok (p.1 ++ r.1, r.2)
          else .ok (p.1, 0)

/-- `get_recent_video_ids` (lines 84-127): the collected video ids and the
increment applied to the global error counter, or an escaping exception. -/
def get_recent_video_ids (cutoff : Int) (pages : List PageResponse) :
    Except Unit (List String × Nat) :=
  recentGo cutoff pages

/-- The parse outcome of an ISO-8601 duration string
(`isodate.parse_duration`): a well-formed duration with its total seconds,
or a malformed string on which the parse raises. -/
inductive DurationVal where
  | valid (seconds : Nat) : DurationVal
  | malformed : DurationVal
deriving Repr, DecidableEq

/-- One count field of a `statistics` object: the key may be absent (the
code substitutes 0 via `.get(…, 0)`), the value may be a non-numeric string
(`int(...)` raises an uncaught `ValueError`), or a numeric count. -/
inductive CountField where
  | missing : CountField
  | malformed : CountField
  | value (n : Nat) : CountField
deriving Repr, DecidableEq

/-- `int(stats.get(key, 0))` for one count field. -/
def CountField.toVal : CountField → Except Unit Nat
  | .missing => .ok 0
  | .malformed => .error ()
  | .value n => .ok n

/-- The `statistics` object of a video. -/
structure Statistics where
  viewCount : CountField
  likeCount : CountField
  commentCount : CountField
deriving Repr, DecidableEq

/-- One item of a videos-endpoint response:
`item['contentDetails']['duration']` (a `none` models the `KeyError` the
aggregation loop catches) and `item['statistics']` (likewise). -/
structure VideoStats where
  duration : Option DurationVal
  statistics : Option Statistics
deriving Repr, DecidableEq

/-- One response of a videos batch call: transport failure, or the returned
items. -/
inductive BatchResp where
  | err : BatchResp
  | ok (items : List VideoStats) : BatchResp
deriving Repr, DecidableEq

/-- The batch loop of `get_video_stats_batch` (lines 136-150), making one
call per 50-id chunk: a transport failure stops all remaining batches
(counting one error) and returns what was accumulated. -/
def runBatches (resps : Nat → BatchResp) : Nat → List VideoStats × Nat
  | 0 => ([], 0)
  | n + 1 =>
      match resps 0 with
      | .err => ([], 1)
      | .ok items =>
          let r := runBatches (fun k => resps (k + 1)) n
          (items ++ r.1, r.2)

/-- The number of batch calls `range(0, len(video_ids), 50)` makes. -/
def numBatches (n : Nat) : Nat := (n + 49) / 50

/-- `get_video_stats_batch` (lines 130-151): the accumulated stats items and
the increment applied to the global error counter. -/
def get_video_stats_batch (videoIds : List String) (resps : Nat → BatchResp) :
    List VideoStats × Nat :=
  runBatches resps (numBatches videoIds.length)

/-- `is_longform` (lines 154-159): parses the duration and compares its
total seconds against 180.  A malformed duration makes
`isodate.parse_duration` raise, and `is_longform` has no handler, so the
exception propagates to the caller. -/
def is_longform : DurationVal → Except Unit Bool
  | .valid s => .ok (decide (180 ≤ s))
  | .malformed => .error ()

/-- The aggregation loop of `main` (lines 234-246): walk the fetched stats
items, keep the three counts of every long-form item (missing individual
counts default to 0), skip items missing the duration or the statistics
object (`KeyError` is caught), and propagate the uncaught duration-parse
and count-parse exceptions. -/
def collectLongform : List VideoStats → Except Unit (List Nat × List Nat × List Nat)
  | [] => .ok ([], [], [])
  | item :: rest =>
      match item.duration with
      | none => collectLongform rest
      | some d =>
          match is_longform d with
          | .error e => .error e
          | .ok lf =>
              if lf then
                match item.statistics with
                | none => collectLongform rest
                | some s =>
                    match s.viewCount.toVal with
                    | .error e => .error e
                    | .ok vw =>
                        match s.likeCount.toVal with
                        | .error e => .error e
                        | .ok lk =>
                            match s.commentCount.toVal with
                            | .error e => .error e
                            | .ok cm =>
                                match collectLongform rest with
                                | .error e => .error e
                                | .ok (vs, ls, cs) =>
                                    .ok (vw :: vs, lk :: ls, cm :: cs)
              else collectLongform rest

/-- Fuel-bounded base-2 floor logarithm; `log2fuel n n` is exact for
`1 ≤ n` and reduces structurally (about `log2 n` steps). -/
def log2fuel : Nat → Nat → Nat
  | 0, _ => 0
  | fuel + 1, n => if n ≤ 1 then 0 else log2fuel fuel (n / 2) + 1

/-- Floor of the base-2 logarithm of a positive natural. -/
def floorLog2 (n : Nat) : Nat := log2fuel n n

/-- Round the rational `a / b` (with `b > 0`) to the nearest integer,
ties to even. -/
def rhe (a b : Nat) : Nat :=
  if 2 * (a % b) < b then a / b
  else if b < 2 * (a % b) then a / b + 1
  else if (a / b) % 2 = 0 then a / b else a / b + 1

/-- `int(s / n)` for Python ints `s ≥ 0`, `n ≥ 1`.  The true quotient
`s / n` is correctly rounded to an IEEE-754 binary64 (53-bit significand,
round to nearest, ties to even) and truncated toward zero; a rounded
quotient of `2 ^ 1024` or more raises `OverflowError`.  With
`e = ⌊log2 (s / n)⌋` the rounded significand is the nearest-even rounding
of `s·2^52 / (n·2^e)`; a quotient below 1 truncates to 1 exactly when it
rounds up to 1.0, i.e. when `s / n ≥ 1 - 2^-54`. -/
def pyIntDiv (s n : Nat) : Except Unit Nat :=
  if s = 0 then .ok 0
  else if n ≤ s then
    if 52 ≤ floorLog2 (s / n) then
      if 2 ^ 1024 ≤ rhe (s * 2 ^ 52) (n * 2 ^ floorLog2 (s / n)) *
          2 ^ (floorLog2 (s / n) - 52) then .error ()
      else .ok (rhe (s * 2 ^ 52) (n * 2 ^ floorLog2 (s / n)) *
          2 ^ (floorLog2 (s / n) - 52))
    else .ok (rhe (s * 2 ^ 52) (n * 2 ^ floorLog2 (s / n)) /
        2 ^ (52 - floorLog2 (s / n)))
  else if (2 ^ 54 - 1) * n ≤ 2 ^ 54 * s then .ok 1 else .ok 0

/-- `int(sum(l) / len(l)) if l else 0` (lines 249-251). -/
def average (l : List Nat) : Except Unit Nat :=
  if l.isEmpty then .ok 0 else pyIntDiv l.sum l.length

/-- The three written aggregate fields `LGVPV90`, `LGLPV90`, `LGCPV90`. -/
structure AggFields where
  views : Nat
  likes : Nat
  comments : Nat
deriving Repr, DecidableEq

/-- Steps 5-6 of `main` (lines 234-251): collect the long-form counts and
average each of the three lists, views first (the order in which an
overflow would raise). -/
def computeAverages (vs : List VideoStats) : Except Unit AggFields :=
  match collectLongform vs with
  | .error e => .error e
  | .ok (v, l, c) =>
      match average v with
      | .error e => .error e
      | .ok av =>
          match average l with
          | .error e => .error e
          | .ok al =>
              match average c with
              | .error e => .error e
              | .ok ac => .ok ⟨av, al, ac⟩

/-- Outcome of the record-store PATCH issued by `update_airtable_record`. -/
inductive WriteOutcome where
  | success : WriteOutcome
  | failed : WriteOutcome
deriving Repr, DecidableEq

/-- `update_airtable_record` (lines 162-174): the request is issued and any
`RequestException` is caught and logged, so the function returns normally in
both outcomes and never touches the error counter. -/
def update_airtable_record : WriteOutcome → Unit
  | .success => ()
  | .failed => ()

/-- The external responses consumed while processing one subject record. -/
structure World where
  channelResp : ChannelResp
  pages : List PageResponse
  batchResps : Nat → BatchResp
  writeOutcome : WriteOutcome

/-- The driver's mutable state: the global error counter, the
`updated_count` tally, and the log of update calls issued (record id and
the three fields written). -/
structure DriverState where
  errorCount : Nat
  updatedCount : Nat
  updates : List (String × AggFields)
deriving Repr, DecidableEq

/-- The state after issuing an update call and counting the record. -/
def afterUpdate (st : DriverState) (rid : String) (f : AggFields) : DriverState :=
  { st with
    updatedCount := st.updatedCount + 1
    updates := st.updates ++ [(rid, f)] }

/-- The per-record body of the driver loop (lines 201-262): skip records
without a channel id; on a missing playlist or no recent videos write the
three zero fields; otherwise batch-fetch stats, aggregate, and write the
averages.  An uncaught exception from channel resolution, recency
filtering, or aggregation propagates as `Except.error`. -/
def processRecord (cutoff : Int) (rec : AirtableRecord) (w : World)
    (st : DriverState) : Except Unit DriverState :=
  match rec.channelId with
  | none => .ok st
  | some cid =>
      if cid = "" then .ok st
      else
        match get_uploads_playlist_id w.channelResp with
        | .error e => .error e
        | .ok r1 =>
            let st1 := { st with errorCount := st.errorCount + r1.2 }
            match r1.1 with
            | none =>
                let _ := update_airtable_record w.writeOutcome
                .ok (afterUpdate st1 rec.id ⟨0, 0, 0⟩)
            | some pid =>
                if pid = "" then
                  let _ := update_airtable_record w.writeOutcome
                  .ok (afterUpdate st1 rec.id ⟨0, 0, 0⟩)
                else
                  match get_recent_video_ids cutoff w.pages with
                  | .error e => .error e
                  | .ok r2 =>
                      let st2 := { st1 with errorCount := st1.errorCount + r2.2 }
                      if r2.1 = [] then
                        let _ := update_airtable_record w.writeOutcome
                        .ok (afterUpdate st2 rec.id ⟨0, 0, 0⟩)
                      else
                        let r3 := get_video_stats_batch r2.1 w.batchResps
                        let st3 := { st2 with errorCount := st2.errorCount + r3.2 }
                        match computeAverages r3.1 with
                        | .error e => .error e
                        | .ok fields =>
                            let _ := update_airtable_record w.writeOutcome
                            .ok (afterUpdate st3 rec.id fields)

/-- The driver loop of `main` (lines 196-262): before each record, halt if
the error counter has reached `ERROR_LIMIT`; otherwise process the record,
propagating an uncaught exception. -/
def driverLoop (cutoff : Int) (ws : Nat → World) :
    List AirtableRecord → Nat → DriverState → Except Unit DriverState
  | [], _, st => .ok st
  | rec :: rest, i, st =>
      if ERROR_LIMIT ≤ st.errorCount then .ok st
      else
        match processRecord cutoff rec (ws i) st with
        | .error e => .error e
        | .ok st1 => driverLoop cutoff ws rest (i + 1) st1

/-- `main` (lines 177-265) after the configuration check: fetch the records
(a step that never touches the error counter, which enters the loop at 0),
return early when none were fetched, else run the driver loop. -/
def mainRun (cutoff : Int) (storeResps : List StoreResp) (ws : Nat → World) :
    Except Unit DriverState :=
  let records := get_airtable_records storeResps
  if records = [] then .ok ⟨0, 0, []⟩
  else driverLoop cutoff ws records 0 ⟨0, 0, []⟩

/-- A page of a playlist holds no malformed publish timestamp. -/
def pageItemsOK : PageResponse → Prop
  | .err => True
  | .ok items _ =>
      ∀ it ∈ items, it.publishedAt ≠ TimestampField.malformed

/-- A stats item carries no malformed duration and no malformed count. -/
def videoOK (it : VideoStats) : Prop :=
  it.duration ≠ some DurationVal.malformed ∧
  match it.statistics with
  | none => True
  | some s =>
      s.viewCount ≠ CountField.malformed ∧
      s.likeCount ≠ CountField.malformed ∧
      s.commentCount ≠ CountField.malformed

/-- A sample world used to instantiate universally quantified statements. -/
def trivialWorld : World :=
  { channelResp := .err
    pages := []
    batchResps := fun _ => .err
    writeOutcome := .success }

/-- A world whose playlist lookup succeeds but whose playlist has no pages
within the window. -/
def emptyPagesWorld : World :=
  { channelResp := .found "PL1"
    pages := []
    batchResps := fun _ => .ok []
    writeOutcome := .success }

/-- A world whose one recent video exists but whose stats batch call fails. -/
def failedBatchWorld : World :=
  { channelResp := .found "PL1"
    pages := [.ok [⟨.parsed 1, some "v1"⟩] false]
    batchResps := fun _ => .err
    writeOutcome := .success }

/-- A world that delivers one recent video whose duration string is
malformed, so the duration parse raises inside the aggregation loop. -/
def malformedWorld : World :=
  { channelResp := .found "PL1"
    pages := [.ok [⟨.parsed 1, some "v1"⟩] false]
    batchResps := fun _ =>
      .ok [⟨some .malformed, some ⟨.value 1, .value 1, .value 1⟩⟩]
    writeOutcome := .success }

/-- The three-page playlist of the C3 scenario: five qualifying items, then
three items none of which qualifies, then ten qualifying items (cutoff 0). -/
def scenarioPages : List PageResponse :=
  [ .ok [⟨.parsed 10, some "v1"⟩, ⟨.parsed 9, some "v2"⟩,
         ⟨.parsed 8, some "v3"⟩, ⟨.parsed 7, some "v4"⟩,
         ⟨.parsed 6, some "v5"⟩] true,
    .ok [⟨.parsed (-1), some "w1"⟩, ⟨.parsed (-2), some "w2"⟩,
         ⟨.parsed (-3), some "w3"⟩] true,
    .ok [⟨.parsed 5, some "x1"⟩, ⟨.parsed 5, some "x2"⟩,
         ⟨.parsed 5, some "x3"⟩, ⟨.parsed 5, some "x4"⟩,
         ⟨.parsed 5, some "x5"⟩, ⟨.parsed 5, some "x6"⟩,
         ⟨.parsed 5, some "x7"⟩, ⟨.parsed 5, some "x8"⟩,
         ⟨.parsed 5, some "x9"⟩, ⟨.parsed 5, some "x10"⟩] false ]

/-- A concrete stats response: one long-form video (100 views, 10 likes,
2 comments) and one short video that must not be counted. -/
def sampleStats : List VideoStats :=
  [⟨some (.valid 200), some ⟨.value 100, .value 10, .value 2⟩⟩,
   ⟨some (.valid 100), some ⟨.value 999, .value 999, .value 999⟩⟩]

/-- `log2fuel fuel n` with enough fuel brackets `n` between consecutive
powers of two. -/
theorem log2fuel_spec :
    ∀ (fuel n : Nat), 1 ≤ n → n ≤ fuel →
      2 ^ log2fuel fuel n ≤ n ∧ n < 2 ^ (log2fuel fuel n + 1) := by
  intro fuel
  induction fuel with
  | zero =>
      intro n h1 h2
      exact absurd (Nat.le_trans h1 h2) (by decide)
  | succ f ih =>
      intro n h1 h2
      by_cases hn : n ≤ 1
      · have hn1 : n = 1 := by omega
        subst hn1
        simp [log2fuel]
      · have hf1 : 1 ≤ n / 2 := by omega
        have hf2 : n / 2 ≤ f := by omega
        obtain ⟨ha, hb⟩ := ih (n / 2) hf1 hf2
        have hstep : log2fuel (f + 1) n = log2fuel f (n / 2) + 1 := by
          simp [log2fuel, hn]
        rw [hstep]
        have hp1 : (2 : Nat) ^ (log2fuel f (n / 2) + 1) =
            2 * 2 ^ log2fuel f (n / 2) := by ring
        have hp2 : (2 : Nat) ^ (log2fuel f (n / 2) + 1 + 1) =
            2 * 2 ^ (log2fuel f (n / 2) + 1) := by ring
        constructor
        · omega
        · omega

/-- The floor base-2 logarithm brackets a positive natural. -/
theorem floorLog2_spec (n : Nat) (h : 1 ≤ n) :
    2 ^ floorLog2 n ≤ n ∧ n < 2 ^ (floorLog2 n + 1) :=
  log2fuel_spec n n h (Nat.le_refl n)

/-- Nearest-even rounding is within half an ulp:
`|rhe a b - a/b| ≤ 1/2`, stated multiplicatively over the naturals. -/
theorem rhe_bounds (a b : Nat) (hb : 0 < b) :
    2 * a ≤ 2 * (b * rhe a b) + b ∧ 2 * (b * rhe a b) ≤ 2 * a + b := by
  have hmod := Nat.div_add_mod a b
  have hr : a % b < b := Nat.mod_lt a hb
  simp only [rhe]
  split
  · constructor <;> omega
  · split
    · have hx : b * (a / b + 1) = b * (a / b) + b := by ring
      constructor <;> omega
    · split
      · constructor <;> omega
      · have hx : b * (a / b + 1) = b * (a / b) + b := by ring
        constructor <;> omega

/-- Nearest-even rounding of an exact quotient is that quotient. -/
theorem rhe_exact (a b : Nat) (hb : 0 < b) (h : a % b = 0) :
    rhe a b = a / b := by
  simp [rhe, h, hb]

/-- The rounded significand never exceeds `2 ^ 53` when the true quotient
is below `2 ^ 53`. -/
theorem rhe_le_two_pow (A D : Nat) (hD : 0 < D) (hA : A < D * 2 ^ 53) :
    rhe A D ≤ 2 ^ 53 := by
  obtain ⟨hb1, hb2⟩ := rhe_bounds A D hD
  have h1 : D * (2 * rhe A D) < D * (2 * 2 ^ 53 + 1) := by
    have e1 : D * (2 * rhe A D) = 2 * (D * rhe A D) := by ring
    have e2 : D * (2 * 2 ^ 53 + 1) = 2 * (D * 2 ^ 53) + D := by ring
    omega
  have h2 := Nat.lt_of_mul_lt_mul_left h1
  omega

/-- Exactness below `2 ^ 53` for the sub-52 exponent branch: truncating the
rounded quotient recovers floor division. -/
theorem rhe_div_exact (s n e : Nat) (hn : 0 < n) (hs : s < 2 ^ 53)
    (hle : n * 2 ^ e ≤ s) (_hlt : s < n * 2 ^ (e + 1)) (he : e ≤ 51) :
    rhe (s * 2 ^ 52) (n * 2 ^ e) / 2 ^ (52 - e) = s / n := by
  have hQpos : 0 < 2 ^ (52 - e) := pow_pos (by norm_num) _
  have hPpos : 0 < 2 ^ e := pow_pos (by norm_num) _
  have hPQ : 2 ^ e * 2 ^ (52 - e) = 2 ^ 52 := by
    rw [← pow_add]
    congr 1
    omega
  have hD : 0 < n * 2 ^ e := Nat.mul_pos hn hPpos
  obtain ⟨hb1, hb2⟩ := rhe_bounds (s * 2 ^ 52) (n * 2 ^ e) hD
  set m := rhe (s * 2 ^ 52) (n * 2 ^ e) with hm
  set Q := 2 ^ (52 - e) with hQ
  set u := s / n with hu
  set r := s % n with hr0
  have hmod : n * u + r = s := Nat.div_add_mod s n
  have hrn : r < n := Nat.mod_lt s hn
  have l1 : 2 * (s * Q) ≤ 2 * (n * m) + n := by
    have k1 : 2 ^ e * (2 * (s * Q)) = 2 * (s * 2 ^ 52) := by
      rw [← hPQ]; ring
    have k2 : 2 ^ e * (2 * (n * m) + n) = 2 * (n * 2 ^ e * m) + n * 2 ^ e := by
      ring
    apply Nat.le_of_mul_le_mul_left _ hPpos
    rw [k1, k2]
    exact hb1
  have l2 : 2 * (n * m) ≤ 2 * (s * Q) + n := by
    have k1 : 2 ^ e * (2 * (n * m)) = 2 * (n * 2 ^ e * m) := by ring
    have k2 : 2 ^ e * (2 * (s * Q) + n) = 2 * (s * 2 ^ 52) + n * 2 ^ e := by
      rw [← hPQ]; ring
    apply Nat.le_of_mul_le_mul_left _ hPpos
    rw [k1, k2]
    exact hb2
  have hn2Q : n < 2 * Q := by
    have h53 : (2 : Nat) ^ 53 = 2 ^ e * (2 * Q) := by
      have h1 : (2 : Nat) ^ 53 = 2 * 2 ^ 52 := by norm_num
      rw [h1, ← hPQ]; ring
    have h2 : 2 ^ e * n < 2 ^ e * (2 * Q) := by
      rw [← h53]
      calc 2 ^ e * n = n * 2 ^ e := by ring
        _ ≤ s := hle
        _ < 2 ^ 53 := hs
    exact Nat.lt_of_mul_lt_mul_left h2
  by_cases hrz : r = 0
  · have hseq : s = n * u := by omega
    have hfact : s * 2 ^ 52 = n * 2 ^ e * (u * Q) := by
      calc s * 2 ^ 52 = s * (2 ^ e * Q) := by rw [hPQ]
        _ = n * u * (2 ^ e * Q) := by rw [← hseq]
        _ = n * 2 ^ e * (u * Q) := by ring
    have hdvd : (s * 2 ^ 52) % (n * 2 ^ e) = 0 := by
      rw [hfact]
      exact Nat.mul_mod_right _ _
    have hmv : m = u * Q := by
      rw [hm, rhe_exact _ _ hD hdvd, hfact, Nat.mul_div_cancel_left _ hD]
    rw [hmv, Nat.mul_div_cancel _ hQpos]
  · have hr1 : 1 ≤ r := by omega
    have hsplit : s * Q = n * (u * Q) + r * Q := by
      calc s * Q = (n * u + r) * Q := by rw [hmod]
        _ = n * (u * Q) + r * Q := by ring
    have hQr : n < 2 * (r * Q) := by
      have h1 : 2 * Q ≤ 2 * (r * Q) := by
        have h2 : 1 * Q ≤ r * Q := Nat.mul_le_mul_right Q hr1
        omega
      omega
    have hlow : u * Q ≤ m := by
      have e1 : 2 * (n * (u * Q)) + 2 * (r * Q) ≤ 2 * (n * m) + n := by
        calc 2 * (n * (u * Q)) + 2 * (r * Q) = 2 * (s * Q) := by
              rw [hsplit]; ring
          _ ≤ 2 * (n * m) + n := l1
      have e2 : n * (u * Q) < n * m := by omega
      exact Nat.le_of_lt (Nat.lt_of_mul_lt_mul_left e2)
    have hup : m < (u + 1) * Q := by
      have e3 : r * Q + Q ≤ n * Q := by
        have h4 : (r + 1) * Q ≤ n * Q := Nat.mul_le_mul_right Q (by omega)
        have h5 : (r + 1) * Q = r * Q + Q := by ring
        omega
      have e4 : 2 * (n * m) ≤ 2 * (n * (u * Q)) + 2 * (r * Q) + n := by
        calc 2 * (n * m) ≤ 2 * (s * Q) + n := l2
          _ = 2 * (n * (u * Q)) + 2 * (r * Q) + n := by rw [hsplit]; ring
      have e5 : n * m < n * (u * Q + Q) := by
        have hq1 : n * (u * Q + Q) = n * (u * Q) + n * Q := by ring
        omega
      have e6 : m < u * Q + Q := Nat.lt_of_mul_lt_mul_left e5
      have e7 : (u + 1) * Q = u * Q + Q := by ring
      omega
    exact Nat.div_eq_of_lt_le hlow hup

/-- Faithfulness of the float model on the exactly-representable range:
for sums below `2 ^ 53` the truncated correctly-rounded quotient is floor
division. -/
theorem pyIntDiv_exact (s n : Nat) (hn : 0 < n) (hs : s < 2 ^ 53) :
    pyIntDiv s n = .ok (s / n) := by
  by_cases hs0 : s = 0
  · subst hs0
    simp [pyIntDiv, Nat.zero_div]
  · by_cases hns : n ≤ s
    · have hu1 : 1 ≤ s / n := (Nat.one_le_div_iff hn).mpr hns
      obtain ⟨hlo, hhi⟩ := floorLog2_spec (s / n) hu1
      have hne : n * 2 ^ floorLog2 (s / n) ≤ s := by
        calc n * 2 ^ floorLog2 (s / n) ≤ n * (s / n) :=
              Nat.mul_le_mul_left n hlo
          _ ≤ s := by
              rw [Nat.mul_comm]
              exact Nat.div_mul_le_self s n
      have hslt : s < n * 2 ^ (floorLog2 (s / n) + 1) := by
        have h1 := (Nat.div_lt_iff_lt_mul hn).mp hhi
        calc s < 2 ^ (floorLog2 (s / n) + 1) * n := h1
          _ = n * 2 ^ (floorLog2 (s / n) + 1) := by ring
      have hele : floorLog2 (s / n) ≤ 52 := by
        by_contra hgt
        push_neg at hgt
        have h1 : (2 : Nat) ^ 53 ≤ 2 ^ floorLog2 (s / n) :=
          Nat.pow_le_pow_right (by norm_num) hgt
        have h2 : s / n ≤ s := Nat.div_le_self s n
        omega
      by_cases h52 : 52 ≤ floorLog2 (s / n)
      · have heq : floorLog2 (s / n) = 52 := by omega
        have hn1 : n = 1 := by
          by_contra hn2
          have hn2' : 2 ≤ n := by omega
          have hlo' : 2 ^ 52 ≤ s / n := by rw [heq] at hlo; exact hlo
          have hsn : s / n ≤ s / 2 := Nat.div_le_div_left hn2' (by norm_num)
          have h53 : (2 : Nat) ^ 53 = 2 * 2 ^ 52 := by norm_num
          omega
        subst hn1
        have heq' : floorLog2 s = 52 := by
          rw [Nat.div_one] at heq
          exact heq
        unfold pyIntDiv
        rw [if_neg hs0, if_pos hns]
        rw [Nat.div_one, heq']
        have hone : (1 : Nat) * 2 ^ 52 = 2 ^ 52 := by ring
        have hrhe : rhe (s * 2 ^ 52) (2 ^ 52) = s := by
          rw [rhe_exact _ _ (pow_pos (by norm_num) _)
            (Nat.mul_mod_left s (2 ^ 52))]
          exact Nat.mul_div_cancel s (pow_pos (by norm_num) _)
        rw [if_pos (by norm_num), hone, hrhe, Nat.sub_self, pow_zero,
          Nat.mul_one]
        rw [if_neg ?hflow]
        case hflow =>
          have h1 : (2 : Nat) ^ 53 ≤ 2 ^ 1024 :=
            Nat.pow_le_pow_right (by norm_num) (by norm_num)
          omega
      · unfold pyIntDiv
        rw [if_neg hs0, if_pos hns, if_neg h52]
        rw [rhe_div_exact s n (floorLog2 (s / n)) hn hs hne hslt (by omega)]
    · push_neg at hns
      have hdiv : s / n = 0 := Nat.div_eq_of_lt hns
      have hcond : ¬ ((2 ^ 54 - 1) * n ≤ 2 ^ 54 * s) := by
        have h54 : (2 : Nat) ^ 54 = 18014398509481984 := by norm_num
        have h53 : (2 : Nat) ^ 53 = 9007199254740992 := by norm_num
        omega
      have hns' : ¬ n ≤ s := by omega
      unfold pyIntDiv
      rw [if_neg hs0, if_neg hns', if_neg hcond, hdiv]

/-- Below `2 ^ 1023` the quotient never overflows, so the model division
returns a value. -/
theorem pyIntDiv_ok (s n : Nat) (hn : 0 < n) (hs : s < 2 ^ 1023) :
    ∃ k, pyIntDiv s n = .ok k := by
  by_cases hs0 : s = 0
  · exact ⟨0, by simp [pyIntDiv, hs0]⟩
  · by_cases hns : n ≤ s
    · by_cases h52 : 52 ≤ floorLog2 (s / n)
      · have hu1 : 1 ≤ s / n := (Nat.one_le_div_iff hn).mpr hns
        obtain ⟨hlo, hhi⟩ := floorLog2_spec (s / n) hu1
        have he1022 : floorLog2 (s / n) ≤ 1022 := by
          by_contra hgt
          push_neg at hgt
          have h1 : (2 : Nat) ^ 1023 ≤ 2 ^ floorLog2 (s / n) :=
            Nat.pow_le_pow_right (by norm_num) hgt
          have h2 : s / n ≤ s := Nat.div_le_self s n
          omega
        have hslt : s < n * 2 ^ (floorLog2 (s / n) + 1) := by
          have h1 := (Nat.div_lt_iff_lt_mul hn).mp hhi
          calc s < 2 ^ (floorLog2 (s / n) + 1) * n := h1
            _ = n * 2 ^ (floorLog2 (s / n) + 1) := by ring
        have hD : 0 < n * 2 ^ floorLog2 (s / n) :=
          Nat.mul_pos hn (pow_pos (by norm_num) _)
        have hA : s * 2 ^ 52 < n * 2 ^ floorLog2 (s / n) * 2 ^ 53 := by
          calc s * 2 ^ 52 < n * 2 ^ (floorLog2 (s / n) + 1) * 2 ^ 52 :=
                mul_lt_mul_of_pos_right hslt (pow_pos (by norm_num) _)
            _ = n * 2 ^ floorLog2 (s / n) * 2 ^ 53 := by
                rw [pow_succ]
                have h53 : (2 : Nat) ^ 53 = 2 ^ 52 * 2 := by norm_num
                rw [h53]; ring
        have hm53 := rhe_le_two_pow _ _ hD hA
        have hv : rhe (s * 2 ^ 52) (n * 2 ^ floorLog2 (s / n)) *
            2 ^ (floorLog2 (s / n) - 52) ≤ 2 ^ 1023 := by
          calc rhe (s * 2 ^ 52) (n * 2 ^ floorLog2 (s / n)) *
              2 ^ (floorLog2 (s / n) - 52) ≤ 2 ^ 53 * 2 ^ 970 :=
                Nat.mul_le_mul hm53
                  (Nat.pow_le_pow_right (by norm_num) (by omega))
            _ = 2 ^ 1023 := by rw [← pow_add]
        have hnoflow : ¬ (2 ^ 1024 ≤
            rhe (s * 2 ^ 52) (n * 2 ^ floorLog2 (s / n)) *
              2 ^ (floorLog2 (s / n) - 52)) := by
          have h1 : (2 : Nat) ^ 1024 = 2 ^ 1023 * 2 := pow_succ 2 1023
          have h2 : 0 < (2 : Nat) ^ 1023 := pow_pos (by norm_num) _
          omega
        refine ⟨rhe (s * 2 ^ 52) (n * 2 ^ floorLog2 (s / n)) *
          2 ^ (floorLog2 (s / n) - 52), ?_⟩
        unfold pyIntDiv
        rw [if_neg hs0, if_pos hns, if_pos h52, if_neg hnoflow]
      · refine ⟨rhe (s * 2 ^ 52) (n * 2 ^ floorLog2 (s / n)) /
          2 ^ (52 - floorLog2 (s / n)), ?_⟩
        unfold pyIntDiv
        rw [if_neg hs0, if_pos hns, if_neg h52]
    · by_cases hc : (2 ^ 54 - 1) * n ≤ 2 ^ 54 * s
      · refine ⟨1, ?_⟩
        unfold pyIntDiv
        rw [if_neg hs0, if_neg hns, if_pos hc]
      · refine ⟨0, ?_⟩
        unfold pyIntDiv
        rw [if_neg hs0, if_neg hns, if_neg hc]

/-- On a non-empty list whose sum is below `2 ^ 53`, the model average is
exact floor division of sum by length. -/
theorem average_exact {l : List Nat} (hne : l ≠ []) (hs : l.sum < 2 ^ 53) :
    average l = .ok (l.sum / l.length) := by
  have hpos : 0 < l.length := List.length_pos.mpr hne
  have hemp : l.isEmpty = false := by
    cases l with
    | nil => exact absurd rfl hne
    | cons a t => rfl
  simp only [average, hemp, Bool.false_eq_true, if_false]
  exact pyIntDiv_exact l.sum l.length hpos hs

/-- Below the overflow threshold the model average returns a value. -/
theorem average_ok {l : List Nat} (hs : l.sum < 2 ^ 1023) :
    ∃ k, average l = .ok k := by
  cases l with
  | nil => exact ⟨0, rfl⟩
  | cons a t =>
      obtain ⟨k, hk⟩ :=
        pyIntDiv_ok (a :: t).sum (a :: t).length (by simp) hs
      refine ⟨k, ?_⟩
      have hemp : (a :: t).isEmpty = false := rfl
      simp only [average, hemp, Bool.false_eq_true, if_false]
      exact hk

/-- The three lists collected by the aggregation loop always have the same
length: the loop appends to all three together. -/
theorem collectLongform_lengths :
    ∀ (vs : List VideoStats) (v l c : List Nat),
      collectLongform vs = .ok (v, l, c) →
      v.length = l.length ∧ v.length = c.length := by
  intro vs
  induction vs with
  | nil =>
      intro v l c h
      simp only [collectLongform, Except.ok.injEq, Prod.mk.injEq] at h
      obtain ⟨rfl, rfl, rfl⟩ := h
      exact ⟨rfl, rfl⟩
  | cons item rest ih =>
      intro v l c h
      simp only [collectLongform] at h
      cases hd : item.duration with
      | none =>
          simp only [hd] at h
          exact ih _ _ _ h
      | some d =>
          simp only [hd] at h
          cases d with
          | malformed => simp [is_longform] at h
          | valid s =>
              simp only [is_longform] at h
              by_cases hs : (180 : Nat) ≤ s
              · simp only [hs, decide_eq_true_eq, if_true] at h
                cases hstat : item.statistics with
                | none =>
                    simp only [hstat] at h
                    exact ih _ _ _ h
                | some stt =>
                    simp only [hstat] at h
                    cases hv : stt.viewCount.toVal with
                    | error e => simp only [hv] at h; exact absurd h (by simp)
                    | ok a =>
                        simp only [hv] at h
                        cases hl : stt.likeCount.toVal with
                        | error e =>
                            simp only [hl] at h
                            exact absurd h (by simp)
                        | ok b =>
                            simp only [hl] at h
                            cases hcm : stt.commentCount.toVal with
                            | error e =>
                                simp only [hcm] at h
                                exact absurd h (by simp)
                            | ok k =>
                                simp only [hcm] at h
                                cases hrec : collectLongform rest with
                                | error e =>
                                    simp only [hrec] at h
                                    exact absurd h (by simp)
                                | ok t =>
                                    obtain ⟨vs', ls', cs'⟩ := t
                                    simp only [hrec, Except.ok.injEq,
                                      Prod.mk.injEq] at h
                                    obtain ⟨rfl, rfl, rfl⟩ := h
                                    obtain ⟨g1, g2⟩ := ih _ _ _ hrec
                                    exact ⟨by simpa using g1, by simpa using g2⟩
              · simp only [hs, decide_eq_true_eq, if_false] at h
                exact ih _ _ _ h

/-- A list of elements all at least `m` has sum at least `length * m`. -/
theorem length_mul_le_sum (m : Nat) :
    ∀ l : List Nat, (∀ x ∈ l, m ≤ x) → l.length * m ≤ l.sum := by
  intro l
  induction l with
  | nil => intro _; simp
  | cons a t ih =>
      intro h
      have ha := h a (by simp)
      have ht := ih (fun x hx => h x (by simp [hx]))
      simp only [List.length_cons, List.sum_cons]
      calc (t.length + 1) * m = m + t.length * m := by ring
        _ ≤ a + t.sum := Nat.add_le_add ha ht

/-- A list of elements all at most `M` has sum at most `length * M`. -/
theorem sum_le_length_mul (M : Nat) :
    ∀ l : List Nat, (∀ x ∈ l, x ≤ M) → l.sum ≤ l.length * M := by
  intro l
  induction l with
  | nil => intro _; simp
  | cons a t ih =>
      intro h
      have ha := h a (by simp)
      have ht := ih (fun x hx => h x (by simp [hx]))
      simp only [List.length_cons, List.sum_cons]
      calc a + t.sum ≤ M + t.length * M := Nat.add_le_add ha ht
        _ = (t.length + 1) * M := by ring

/-- A lower bound on all elements bounds the truncated mean from below. -/
theorem le_sum_div {l : List Nat} {m : Nat} (hne : l ≠ [])
    (h : ∀ x ∈ l, m ≤ x) : m ≤ l.sum / l.length := by
  have hpos : 0 < l.length := List.length_pos.mpr hne
  exact (Nat.le_div_iff_mul_le hpos).mpr
    (by rw [Nat.mul_comm]; exact length_mul_le_sum m l h)

/-- An upper bound on all elements bounds the truncated mean from above. -/
theorem sum_div_le {l : List Nat} {M : Nat} (hne : l ≠ [])
    (h : ∀ x ∈ l, x ≤ M) : l.sum / l.length ≤ M := by
  have hpos : 0 < l.length := List.length_pos.mpr hne
  calc l.sum / l.length ≤ l.length * M / l.length :=
        Nat.div_le_div_right (sum_le_length_mul M l h)
    _ = M := Nat.mul_div_cancel_left M hpos

/-- C8: the long-form predicate holds exactly when the parsed duration is at
least 180 seconds; 180 seconds qualifies and 179 seconds does not. -/
theorem longform_iff_ge_180 :
    (∀ s : Nat, is_longform (DurationVal.valid s) = .ok true ↔ 180 ≤ s) ∧
    is_longform (DurationVal.valid 180) = .ok true ∧
    is_longform (DurationVal.valid 179) = .ok false := by
  refine ⟨fun s => ?_, rfl, rfl⟩
  simp [is_longform]

/-- Witness for C8 at a concrete duration. -/
theorem longform_iff_ge_180_witness :
    is_longform (DurationVal.valid 200) = .ok true :=
  (longform_iff_ge_180.1 200).mpr (by decide)

/-- C4: the error threshold is 10, and once the driver state's error count
has reached it the loop returns the state unchanged: no remaining record is
looked up and no further write is issued. -/
theorem error_budget_halts :
    ERROR_LIMIT = 10 ∧
    ∀ (cutoff : Int) (ws : Nat → World) (recs : List AirtableRecord)
      (i : Nat) (st : DriverState), ERROR_LIMIT ≤ st.errorCount →
      driverLoop cutoff ws recs i st = .ok st := by
  refine ⟨rfl, fun cutoff ws recs i st h => ?_⟩
  cases recs with
  | nil => rfl
  | cons r rest => simp [driverLoop, h]

/-- Witness for C4: a state at the threshold with one record remaining. -/
theorem error_budget_halts_witness :
    driverLoop 0 (fun _ => trivialWorld) [⟨"rec1", some "UC1"⟩] 0
      ⟨10, 3, []⟩ = .ok ⟨10, 3, []⟩ :=
  error_budget_halts.2 0 (fun _ => trivialWorld) [⟨"rec1", some "UC1"⟩] 0
    ⟨10, 3, []⟩ (by decide)

/-- C3: a fetched page with items but no qualifying item stops pagination
immediately, whatever pages follow; an empty page does not stop it; and on
the scenario pages [5 qualifying][3 items, none qualifying][10 qualifying]
the filter returns exactly the first five identifiers. -/
theorem recency_early_stop :
    (∀ (cutoff : Int) (items : List PlaylistItem) (next : Bool)
       (rest : List PageResponse) (p : List String × Bool),
       pageCollect cutoff items = .ok p → p.2 = false → items ≠ [] →
       recentGo cutoff (.ok items next :: rest) = .ok (p.1, 0)) ∧
    (∀ (cutoff : Int) (rest : List PageResponse),
       recentGo cutoff (.ok [] true :: rest) = recentGo cutoff rest) ∧
    get_recent_video_ids 0 scenarioPages =
      .ok (["v1", "v2", "v3", "v4", "v5"], 0) := by
  refine ⟨fun cutoff items next rest p hp hflag hne => ?_,
    fun cutoff rest => ?_, ?_⟩
  · simp [recentGo, hp, hflag, hne]
  · cases hr : recentGo cutoff rest with
    | error e => simp [recentGo, pageCollect, hr]
    | ok r => simp [recentGo, pageCollect, hr]
  · rfl

/-- Witness for C3: the early stop applied to a one-item non-qualifying
page, with a qualifying page behind it. -/
theorem recency_early_stop_witness :
    recentGo 0 [.ok [⟨.parsed (-5), some "z1"⟩] true,
                .ok [⟨.parsed 3, some "q1"⟩] false] =
      .ok (([] : List String), 0) :=
  recency_early_stop.1 0 [⟨.parsed (-5), some "z1"⟩] true
    [.ok [⟨.parsed 3, some "q1"⟩] false] ([], false) rfl rfl (by decide)

set_option maxRecDepth 40000 in
/-- Counterexample to C1 as stated: a qualifying subset of one video with
2^53 + 1 views.  The program computes `int((2^53+1)/1)`, and the float
division rounds to the nearest even double before truncation, so the
reported views aggregate is 2^53 — not the floor 2^53 + 1, and strictly
below the subset minimum. -/
theorem averages_float_counterexample :
    computeAverages [⟨some (.valid 200),
        some ⟨.value 9007199254740993, .value 1, .value 1⟩⟩] =
      .ok ⟨9007199254740992, 1, 1⟩ ∧
    collectLongform [⟨some (.valid 200),
        some ⟨.value 9007199254740993, .value 1, .value 1⟩⟩] =
      .ok ([9007199254740993], [1], [1]) ∧
    9007199254740992 ≠
      [(9007199254740993 : Nat)].sum / [(9007199254740993 : Nat)].length ∧
    [(9007199254740993 : Nat)].minimum = ((9007199254740993 : Nat) : WithTop Nat) ∧
    (9007199254740992 : Nat) < 9007199254740993 :=
  ⟨rfl, rfl, by decide, List.minimum_singleton _, by decide⟩

/-- C1 as amended: on a non-empty qualifying subset each of whose three
metric sums is below 2^53 (the range on which the float division is exact),
each written aggregate is the floor of the corresponding metric's sum
divided by the subset size (the three collected lists all have that size),
and each aggregate lies between that metric's minimum and maximum over the
subset. -/
theorem averages_floor_and_bounds :
    ∀ (vs : List VideoStats) (v l c : List Nat),
      collectLongform vs = .ok (v, l, c) → v ≠ [] →
      v.sum < 2 ^ 53 → l.sum < 2 ^ 53 → c.sum < 2 ^ 53 →
      computeAverages vs =
        .ok ⟨v.sum / v.length, l.sum / l.length, c.sum / c.length⟩ ∧
      v.length = l.length ∧ v.length = c.length ∧
      (∀ m : Nat, v.minimum = (m : WithTop Nat) → m ≤ v.sum / v.length) ∧
      (∀ M : Nat, v.maximum = (M : WithBot Nat) → v.sum / v.length ≤ M) ∧
      (∀ m : Nat, l.minimum = (m : WithTop Nat) → m ≤ l.sum / l.length) ∧
      (∀ M : Nat, l.maximum = (M : WithBot Nat) → l.sum / l.length ≤ M) ∧
      (∀ m : Nat, c.minimum = (m : WithTop Nat) → m ≤ c.sum / c.length) ∧
      (∀ M : Nat, c.maximum = (M : WithBot Nat) → c.sum / c.length ≤ M) := by
  intro vs v l c hcol hv h1 h2 h3
  obtain ⟨hl1, hl2⟩ := collectLongform_lengths vs v l c hcol
  have hlne : l ≠ [] := by
    intro h
    subst h
    exact hv (List.length_eq_zero.mp (by simpa using hl1))
  have hcne : c ≠ [] := by
    intro h
    subst h
    exact hv (List.length_eq_zero.mp (by simpa using hl2))
  have hav := average_exact hv h1
  have hal := average_exact hlne h2
  have hac := average_exact hcne h3
  refine ⟨?_, hl1, hl2, ?_, ?_, ?_, ?_, ?_, ?_⟩
  · simp [computeAverages, hcol, hav, hal, hac]
  · intro m hm
    exact le_sum_div hv (List.minimum_eq_coe_iff.mp hm).2
  · intro M hM
    exact sum_div_le hv (List.maximum_eq_coe_iff.mp hM).2
  · intro m hm
    exact le_sum_div hlne (List.minimum_eq_coe_iff.mp hm).2
  · intro M hM
    exact sum_div_le hlne (List.maximum_eq_coe_iff.mp hM).2
  · intro m hm
    exact le_sum_div hcne (List.minimum_eq_coe_iff.mp hm).2
  · intro M hM
    exact sum_div_le hcne (List.maximum_eq_coe_iff.mp hM).2

/-- Witness for the amended C1 on `sampleStats`. -/
theorem averages_floor_and_bounds_witness :
    computeAverages sampleStats = .ok ⟨100, 10, 2⟩ :=
  (averages_floor_and_bounds sampleStats [100] [10] [2] rfl (by decide)
    (by decide) (by decide) (by decide)).1

/-- C2: when the qualifying subset is empty the computed aggregates are all
zero, and when no recent video id was collected at all the driver writes
the literal zero fields (and counts the record). -/
theorem empty_subset_zero_aggregates :
    (∀ (vs : List VideoStats) (l c : List Nat),
       collectLongform vs = .ok ([], l, c) →
       computeAverages vs = .ok ⟨0, 0, 0⟩) ∧
    (∀ (cutoff : Int) (rec : AirtableRecord) (w : World) (st : DriverState)
       (cid pid : String) (r : List String × Nat),
       rec.channelId = some cid → cid ≠ "" →
       w.channelResp = .found pid → pid ≠ "" →
       get_recent_video_ids cutoff w.pages = .ok r → r.1 = [] →
       processRecord cutoff rec w st =
         .ok (afterUpdate
               { st with errorCount := st.errorCount + r.2 }
               rec.id ⟨0, 0, 0⟩)) := by
  constructor
  · intro vs l c h
    obtain ⟨h1, h2⟩ := collectLongform_lengths vs [] l c h
    have hl : l = [] := List.length_eq_zero.mp h1.symm
    have hc : c = [] := List.length_eq_zero.mp h2.symm
    subst hl
    subst hc
    simp [computeAverages, h, average]
  · intro cutoff rec w st cid pid r h1 h2 h3 h4 h5 h6
    simp [processRecord, h1, h2, h3, h4, h5, h6, get_uploads_playlist_id,
      afterUpdate]

/-- Witness for C2: a channel with no recent videos gets the zero fields
written and is counted. -/
theorem empty_subset_zero_aggregates_witness :
    processRecord 0 ⟨"r1", some "UC1"⟩ emptyPagesWorld ⟨0, 0, []⟩ =
      .ok ⟨0, 1, [("r1", ⟨0, 0, 0⟩)]⟩ :=
  empty_subset_zero_aggregates.2 0 ⟨"r1", some "UC1"⟩ emptyPagesWorld
    ⟨0, 0, []⟩ "UC1" "PL1" ([], 0) rfl (by decide) rfl (by decide) rfl rfl

/-- The write outcome is consumed only by the caught-and-logged PATCH, so
per-record processing is unaffected by it. -/
theorem processRecord_writeOutcome (cutoff : Int) (rec : AirtableRecord)
    (w : World) (st : DriverState) (b : WriteOutcome) :
    processRecord cutoff rec { w with writeOutcome := b } st =
      processRecord cutoff rec w st := rfl

/-- Each per-record path increments `updated_count` exactly when it appends
one update call to the log. -/
theorem processRecord_count (cutoff : Int) (rec : AirtableRecord) (w : World)
    (st st' : DriverState) (h : processRecord cutoff rec w st = .ok st') :
    st'.updatedCount + st.updates.length =
      st.updatedCount + st'.updates.length := by
  simp only [processRecord] at h
  split at h
  · simp only [Except.ok.injEq] at h; subst h; rfl
  · split at h
    · simp only [Except.ok.injEq] at h; subst h; rfl
    · split at h
      · exact absurd h (by simp)
      · split at h
        · simp only [Except.ok.injEq] at h
          subst h
          simp [afterUpdate]
          omega
        · split at h
          · simp only [Except.ok.injEq] at h
            subst h
            simp [afterUpdate]
            omega
          · split at h
            · exact absurd h (by simp)
            · split at h
              · simp only [Except.ok.injEq] at h
                subst h
                simp [afterUpdate]
                omega
              · split at h
                · exact absurd h (by simp)
                · simp only [Except.ok.injEq] at h
                  subst h
                  simp [afterUpdate]
                  omega

/-- The loop preserves the count-equals-attempts relation. -/
theorem driverLoop_count (cutoff : Int) (ws : Nat → World) :
    ∀ (recs : List AirtableRecord) (i : Nat) (st st' : DriverState),
      driverLoop cutoff ws recs i st = .ok st' →
      st'.updatedCount + st.updates.length =
        st.updatedCount + st'.updates.length := by
  intro recs
  induction recs with
  | nil =>
      intro i st st' h
      simp only [driverLoop, Except.ok.injEq] at h
      subst h
      rfl
  | cons rec rest ih =>
      intro i st st' h
      simp only [driverLoop] at h
      split at h
      · simp only [Except.ok.injEq] at h; subst h; rfl
      · split at h
        · exact absurd h (by simp)
        · rename_i st1 heq
          have k1 := processRecord_count cutoff rec (ws i) st st1 heq
          have k2 := ih _ _ _ h
          omega

/-- C7: the per-record processing result is independent of whether the sink
PATCH succeeds or fails, and the final count reported by a completed run
equals the number of update calls that were issued. -/
theorem sink_failure_ignored :
    (∀ (cutoff : Int) (rec : AirtableRecord) (w : World) (st : DriverState)
       (b : WriteOutcome),
       processRecord cutoff rec { w with writeOutcome := b } st =
         processRecord cutoff rec w st) ∧
    (∀ (cutoff : Int) (storeResps : List StoreResp) (ws : Nat → World)
       (st' : DriverState),
       mainRun cutoff storeResps ws = .ok st' →
       st'.updatedCount = st'.updates.length) := by
  refine ⟨processRecord_writeOutcome, ?_⟩
  intro cutoff storeResps ws st' h
  simp only [mainRun] at h
  split at h
  · simp only [Except.ok.injEq] at h; subst h; rfl
  · have := driverLoop_count cutoff ws _ 0 ⟨0, 0, []⟩ st' h
    simpa using this

/-- Witness for C7: a one-record run whose sink call is issued. -/
theorem sink_failure_ignored_witness :
    (⟨0, 1, [("r1", ⟨0, 0, 0⟩)]⟩ : DriverState).updatedCount =
      (⟨0, 1, [("r1", ⟨0, 0, 0⟩)]⟩ : DriverState).updates.length :=
  sink_failure_ignored.2 0 [.ok [⟨"r1", some "UC1"⟩] false]
    (fun _ => emptyPagesWorld) ⟨0, 1, [("r1", ⟨0, 0, 0⟩)]⟩ rfl

/-- Pagination that completes without a transport failure never increments
the error counter. -/
theorem recentGo_no_err (cutoff : Int) :
    ∀ (pages : List PageResponse) (r : List String × Nat),
      PageResponse.err ∉ pages → recentGo cutoff pages = .ok r → r.2 = 0 := by
  intro pages
  induction pages with
  | nil =>
      intro r _ hok
      simp only [recentGo, Except.ok.injEq] at hok
      subst hok
      rfl
  | cons p rest ih =>
      intro r h hok
      cases p with
      | err => exact absurd (by simp) h
      | ok items next =>
          have hrest : PageResponse.err ∉ rest :=
            fun hx => h (List.mem_cons_of_mem _ hx)
          simp only [recentGo] at hok
          cases hpc : pageCollect cutoff items with
          | error e =>
              simp only [hpc] at hok
              exact absurd hok (by simp)
          | ok q =>
              simp only [hpc] at hok
              split at hok
              · simp only [Except.ok.injEq] at hok; subst hok; rfl
              · split at hok
                · cases hrec : recentGo cutoff rest with
                  | error e =>
                      simp only [hrec] at hok
                      exact absurd hok (by simp)
                  | ok r' =>
                      simp only [hrec, Except.ok.injEq] at hok
                      subst hok
                      exact ih r' hrest hrec
                · simp only [Except.ok.injEq] at hok; subst hok; rfl

/-- Batching over error-free responses never increments the error counter. -/
theorem runBatches_no_err :
    ∀ (n : Nat) (resps : Nat → BatchResp), (∀ k, resps k ≠ .err) →
      (runBatches resps n).2 = 0 := by
  intro n
  induction n with
  | zero => intro _ _; rfl
  | succ n ih =>
      intro resps h
      simp only [runBatches]
      split
      · rename_i heq
        exact absurd heq (h 0)
      · simpa using ih (fun k => resps (k + 1)) (fun k => h (k + 1))

/-- A failed first batch call aborts batching with a single increment. -/
theorem runBatches_first_err (resps : Nat → BatchResp) (h : resps 0 = .err) :
    ∀ n : Nat, 0 < n → runBatches resps n = ([], 1) := by
  intro n hn
  cases n with
  | zero => exact absurd hn (by decide)
  | succ m => simp [runBatches, h]

/-- C5: the shared error counter gains exactly one on a transport failure in
channel resolution, recency filtering, or stats batching, and gains nothing
on error-free calls, on a not-found channel, on a sink write failure, or on
the record-store fetch (which feeds the loop with the counter still at 0). -/
theorem error_counter_discipline :
    get_uploads_playlist_id .err = .ok (none, 1) ∧
    get_uploads_playlist_id .noItems = .ok (none, 0) ∧
    (∀ u : String, get_uploads_playlist_id (.found u) = .ok (some u, 0)) ∧
    (∀ (cutoff : Int) (rest : List PageResponse),
       recentGo cutoff (.err :: rest) = .ok ([], 1)) ∧
    (∀ (cutoff : Int) (pages : List PageResponse) (r : List String × Nat),
       PageResponse.err ∉ pages → recentGo cutoff pages = .ok r →
       r.2 = 0) ∧
    (∀ (resps : Nat → BatchResp) (n : Nat),
       resps 0 = .err → 0 < n → runBatches resps n = ([], 1)) ∧
    (∀ (n : Nat) (resps : Nat → BatchResp),
       (∀ k, resps k ≠ .err) → (runBatches resps n).2 = 0) ∧
    (∀ (cutoff : Int) (rec : AirtableRecord) (w : World) (st : DriverState)
       (b : WriteOutcome),
       processRecord cutoff rec { w with writeOutcome := b } st =
         processRecord cutoff rec w st) ∧
    (∀ (cutoff : Int) (rec : AirtableRecord) (w : World) (st st' : DriverState)
       (cid : String),
       rec.channelId = some cid → cid ≠ "" → w.channelResp = .noItems →
       processRecord cutoff rec w st = .ok st' →
       st'.errorCount = st.errorCount) ∧
    (∀ (cutoff : Int) (storeResps : List StoreResp) (ws : Nat → World),
       mainRun cutoff storeResps ws =
         (if get_airtable_records storeResps = [] then .ok ⟨0, 0, []⟩
          else driverLoop cutoff ws (get_airtable_records storeResps) 0
                 ⟨0, 0, []⟩)) := by
  refine ⟨rfl, rfl, fun u => rfl, fun cutoff rest => rfl, recentGo_no_err,
    fun resps n h hn => runBatches_first_err resps h n hn,
    runBatches_no_err, processRecord_writeOutcome, ?_, fun _ _ _ => rfl⟩
  intro cutoff rec w st st' cid h1 h2 h3 h4
  simp [processRecord, h1, h2, h3, get_uploads_playlist_id, afterUpdate] at h4
  subst h4
  simp

/-- Witness for C5: a transport failure counts one, an error-free page
counts zero, and a not-found channel leaves the counter unchanged. -/
theorem error_counter_discipline_witness :
    recentGo 0 [PageResponse.err] = .ok ([], 1) ∧
    ((["v1"], 0) : List String × Nat).2 = 0 ∧
    (⟨7, 4, [("r1", ⟨0, 0, 0⟩)]⟩ : DriverState).errorCount =
      (⟨7, 3, []⟩ : DriverState).errorCount :=
  ⟨error_counter_discipline.2.2.2.1 0 [],
   error_counter_discipline.2.2.2.2.1 0
     [.ok [⟨.parsed 3, some "v1"⟩] false] (["v1"], 0) (by decide) rfl,
   error_counter_discipline.2.2.2.2.2.2.2.2.1 0 ⟨"r1", some "UC1"⟩
     { channelResp := .noItems
       pages := []
       batchResps := fun _ => .ok []
       writeOutcome := .success }
     ⟨7, 3, []⟩ ⟨7, 4, [("r1", ⟨0, 0, 0⟩)]⟩ "UC1" rfl (by decide) rfl rfl⟩

/-- A count field that is not malformed converts to a value. -/
theorem toVal_ok {c : CountField} (h : c ≠ CountField.malformed) :
    ∃ k, CountField.toVal c = .ok k := by
  cases c with
  | missing => exact ⟨0, rfl⟩
  | malformed => exact absurd rfl h
  | value n => exact ⟨n, rfl⟩

/-- The per-page loop returns normally when no timestamp is malformed. -/
theorem pageCollect_total (cutoff : Int) :
    ∀ items : List PlaylistItem,
      (∀ it ∈ items, it.publishedAt ≠ TimestampField.malformed) →
      ∃ r, pageCollect cutoff items = .ok r := by
  intro items
  induction items with
  | nil => exact fun _ => ⟨([], false), rfl⟩
  | cons it rest ih =>
      intro h
      obtain ⟨r, hr⟩ := ih (fun x hx => h x (List.mem_cons_of_mem _ hx))
      cases hp : it.publishedAt with
      | missing => exact ⟨r, by simp [pageCollect, hp, hr]⟩
      | malformed => exact absurd hp (h it (by simp))
      | parsed t =>
          by_cases hc : cutoff ≤ t
          · cases hv : it.videoId with
            | none => exact ⟨r, by simp [pageCollect, hp, hc, hv, hr]⟩
            | some v =>
                exact ⟨(v :: r.1, true), by simp [pageCollect, hp, hc, hv, hr]⟩
          · exact ⟨r, by simp [pageCollect, hp, hc, hr]⟩

/-- The recency filter returns normally when no page holds a malformed
timestamp. -/
theorem recentGo_total (cutoff : Int) :
    ∀ pages : List PageResponse, (∀ p ∈ pages, pageItemsOK p) →
      ∃ r, recentGo cutoff pages = .ok r := by
  intro pages
  induction pages with
  | nil => exact fun _ => ⟨([], 0), rfl⟩
  | cons p rest ih =>
      intro h
      cases p with
      | err => exact ⟨([], 1), rfl⟩
      | ok items next =>
          have hitems : ∀ it ∈ items,
              it.publishedAt ≠ TimestampField.malformed := by
            have hh := h (PageResponse.ok items next) (by simp)
            simpa [pageItemsOK] using hh
          obtain ⟨q, hq⟩ := pageCollect_total cutoff items hitems
          by_cases hstop : q.2 = false ∧ items ≠ []
          · exact ⟨(q.1, 0), by simp [recentGo, hq, hstop]⟩
          · cases hnext : next with
            | true =>
                obtain ⟨r, hr⟩ := ih (fun x hx => h x (List.mem_cons_of_mem _ hx))
                exact ⟨(q.1 ++ r.1, r.2), by simp [recentGo, hq, hstop, hr]⟩
            | false => exact ⟨(q.1, 0), by simp [recentGo, hq, hstop]⟩

/-- The aggregation loop returns normally when every item is free of
malformed durations and malformed counts. -/
theorem collectLongform_total :
    ∀ vs : List VideoStats, (∀ it ∈ vs, videoOK it) →
      ∃ t, collectLongform vs = .ok t := by
  intro vs
  induction vs with
  | nil => exact fun _ => ⟨([], [], []), rfl⟩
  | cons item rest ih =>
      intro h
      obtain ⟨⟨vs', ls', cs'⟩, ht⟩ :=
        ih (fun x hx => h x (List.mem_cons_of_mem _ hx))
      obtain ⟨hdur, hstats⟩ := h item (by simp)
      cases hd : item.duration with
      | none => exact ⟨(vs', ls', cs'), by simp [collectLongform, hd, ht]⟩
      | some d =>
          cases d with
          | malformed => exact absurd hd hdur
          | valid s =>
              by_cases hs : (180 : Nat) ≤ s
              · cases hstat : item.statistics with
                | none =>
                    exact ⟨(vs', ls', cs'),
                      by simp [collectLongform, hd, is_longform, hs, hstat, ht]⟩
                | some stt =>
                    simp only [videoOK, hstat] at hstats
                    obtain ⟨hv, hl, hc⟩ := hstats
                    obtain ⟨a, ha⟩ := toVal_ok hv
                    obtain ⟨b, hb⟩ := toVal_ok hl
                    obtain ⟨k, hk⟩ := toVal_ok hc
                    exact ⟨(a :: vs', b :: ls', k :: cs'),
                      by simp [collectLongform, hd, is_longform, hs, hstat,
                        ha, hb, hk, ht]⟩
              · exact ⟨(vs', ls', cs'),
                  by simp [collectLongform, hd, is_longform, hs, ht]⟩

/-- The averaging step returns normally when every item is well-formed and
no metric sum reaches the float overflow range. -/
theorem computeAverages_total (vs : List VideoStats)
    (h : ∀ it ∈ vs, videoOK it)
    (hs : ∀ v l c, collectLongform vs = .ok (v, l, c) →
          v.sum < 2 ^ 1023 ∧ l.sum < 2 ^ 1023 ∧ c.sum < 2 ^ 1023) :
    ∃ f, computeAverages vs = .ok f := by
  obtain ⟨⟨v, l, c⟩, ht⟩ := collectLongform_total vs h
  obtain ⟨h1, h2, h3⟩ := hs v l c ht
  obtain ⟨av, hav⟩ := average_ok h1
  obtain ⟨al, hal⟩ := average_ok h2
  obtain ⟨ac, hac⟩ := average_ok h3
  exact ⟨⟨av, al, ac⟩, by simp [computeAverages, ht, hav, hal, hac]⟩

/-- Per-record processing returns normally when the channel item is well
formed, no timestamp is malformed, every fetched stats item is well formed,
and no metric sum reaches the overflow range. -/
theorem processRecord_total (cutoff : Int) (rec : AirtableRecord) (w : World)
    (st : DriverState)
    (hch : w.channelResp ≠ ChannelResp.malformedItem)
    (hpages : ∀ p ∈ w.pages, pageItemsOK p)
    (hvids : ∀ r, get_recent_video_ids cutoff w.pages = .ok r →
       ∀ it ∈ (get_video_stats_batch r.1 w.batchResps).1, videoOK it)
    (hsums : ∀ r v l c, get_recent_video_ids cutoff w.pages = .ok r →
       collectLongform (get_video_stats_batch r.1 w.batchResps).1 =
         .ok (v, l, c) →
       v.sum < 2 ^ 1023 ∧ l.sum < 2 ^ 1023 ∧ c.sum < 2 ^ 1023) :
    processRecord cutoff rec w st ≠ Except.error () := by
  cases hcid : rec.channelId with
  | none => simp [processRecord, hcid]
  | some cid =>
      by_cases hc : cid = ""
      · simp [processRecord, hcid, hc]
      · cases hcr : w.channelResp with
        | err => simp [processRecord, hcid, hc, hcr, get_uploads_playlist_id]
        | noItems =>
            simp [processRecord, hcid, hc, hcr, get_uploads_playlist_id]
        | malformedItem => exact absurd hcr hch
        | found pid =>
            by_cases hpid : pid = ""
            · simp [processRecord, hcid, hc, hcr, get_uploads_playlist_id,
                hpid]
            · obtain ⟨r, hr⟩ := recentGo_total cutoff w.pages hpages
              by_cases hemp : r.1 = []
              · simp [processRecord, hcid, hc, hcr, get_uploads_playlist_id,
                  hpid, get_recent_video_ids, hr, hemp]
              · obtain ⟨f, hf⟩ := computeAverages_total _ (hvids r hr)
                  (fun v l c hcoll => hsums r v l c hr hcoll)
                simp [processRecord, hcid, hc, hcr, get_uploads_playlist_id,
                  hpid, get_recent_video_ids, hr, hemp, hf]

/-- Counterexample to C6: one recent video with a malformed duration makes
the aggregation step raise, and the exception escapes the per-record
processing into the driver (in the program it aborts the whole run). -/
theorem failure_propagates_counterexample :
    processRecord 0 ⟨"r1", some "UC1"⟩ malformedWorld ⟨0, 0, []⟩ =
      .error () := rfl

set_option maxRecDepth 40000 in
/-- C6 as amended: transport failures and missing-data conditions are
contained — resolver, recency filter, batcher, sink and record fetch all
return empty/partial/sentinel results — and per-record processing returns
normally whenever the consumed responses hold no malformed channel item,
no malformed publish timestamp, no malformed duration, no malformed count,
and no metric sum in the float overflow range; each of those five malformed
or overflowing values, however, escapes its component as an exception. -/
theorem failure_containment_amended :
    get_uploads_playlist_id .err = .ok (none, 1) ∧
    (∀ (cutoff : Int) (rest : List PageResponse),
       recentGo cutoff (.err :: rest) = .ok ([], 1)) ∧
    (∀ (resps : Nat → BatchResp) (n : Nat), resps 0 = .err →
       runBatches resps (n + 1) = ([], 1)) ∧
    (∀ o : WriteOutcome, update_airtable_record o = ()) ∧
    (∀ rest : List StoreResp, get_airtable_records (.err :: rest) = []) ∧
    get_uploads_playlist_id .malformedItem = .error () ∧
    (∀ cutoff : Int,
       pageCollect cutoff [⟨.malformed, some "v"⟩] = .error ()) ∧
    collectLongform [⟨some (.valid 200),
      some ⟨.malformed, .value 1, .value 1⟩⟩] = .error () ∧
    pyIntDiv (2 ^ 1030) 1 = .error () ∧
    (∀ (cutoff : Int) (rec : AirtableRecord) (w : World) (st : DriverState),
       w.channelResp ≠ ChannelResp.malformedItem →
       (∀ p ∈ w.pages, pageItemsOK p) →
       (∀ r, get_recent_video_ids cutoff w.pages = .ok r →
          ∀ it ∈ (get_video_stats_batch r.1 w.batchResps).1, videoOK it) →
       (∀ r v l c, get_recent_video_ids cutoff w.pages = .ok r →
          collectLongform (get_video_stats_batch r.1 w.batchResps).1 =
            .ok (v, l, c) →
          v.sum < 2 ^ 1023 ∧ l.sum < 2 ^ 1023 ∧ c.sum < 2 ^ 1023) →
       processRecord cutoff rec w st ≠ Except.error ()) :=
  ⟨rfl, fun _ _ => rfl, fun resps n h => by simp [runBatches, h],
   fun o => rfl, fun _ => rfl, rfl, fun _ => rfl, rfl, rfl,
   processRecord_total⟩

/-- Witness for the amended C6: a channel whose playlist has no recent
videos is processed without an escaping exception even though its sink
write fails. -/
theorem failure_containment_amended_witness :
    processRecord 0 ⟨"r2", some "UC2"⟩ emptyPagesWorld ⟨0, 0, []⟩ ≠
      Except.error () :=
  failure_containment_amended.2.2.2.2.2.2.2.2.2 0 ⟨"r2", some "UC2"⟩
    emptyPagesWorld ⟨0, 0, []⟩ (by decide)
    (by intro p hp; simp [emptyPagesWorld] at hp)
    (by
      intro r hr it hit
      have h1 := Except.ok.inj
        (show Except.ok (([], 0) : List String × Nat) = .ok r from hr)
      subst h1
      simp [get_video_stats_batch, numBatches, runBatches] at hit)
    (by
      intro r v l c hr hcoll
      have h1 := Except.ok.inj
        (show Except.ok (([], 0) : List String × Nat) = .ok r from hr)
      subst h1
      simp [get_video_stats_batch, numBatches, runBatches,
        collectLongform] at hcoll
      obtain ⟨rfl, rfl, rfl⟩ := hcoll
      refine ⟨?_, ?_, ?_⟩ <;>
        exact pow_pos (show (0 : Nat) < 2 by norm_num) 1023)

/-- At least one batch call is made as soon as one video id was collected. -/
theorem numBatches_pos {n : Nat} (h : 0 < n) : 0 < numBatches n :=
  Nat.div_pos (by omega) (by norm_num)

/-- C9: a record with recent video ids whose first stats batch call fails in
transit still gets the three zero-valued fields written and is counted,
with the batch failure adding one to the error counter. -/
theorem empty_batch_still_written :
    ∀ (cutoff : Int) (rec : AirtableRecord) (w : World) (st : DriverState)
      (cid pid : String) (r : List String × Nat),
      rec.channelId = some cid → cid ≠ "" →
      w.channelResp = .found pid → pid ≠ "" →
      get_recent_video_ids cutoff w.pages = .ok r → r.1 ≠ [] →
      w.batchResps 0 = .err →
      processRecord cutoff rec w st =
        .ok (afterUpdate
              { st with errorCount := st.errorCount + r.2 + 1 }
              rec.id ⟨0, 0, 0⟩) := by
  intro cutoff rec w st cid pid r h1 h2 h3 h4 h5 h6 h7
  have hpos : 0 < numBatches r.1.length :=
    numBatches_pos (List.length_pos.mpr h6)
  have hb : get_video_stats_batch r.1 w.batchResps = ([], 1) :=
    runBatches_first_err _ h7 _ hpos
  simp [processRecord, h1, h2, h3, h4, h5, h6, get_uploads_playlist_id, hb,
    computeAverages, collectLongform, average, afterUpdate]

/-- Witness for C9 on `failedBatchWorld`. -/
theorem empty_batch_still_written_witness :
    processRecord 0 ⟨"r1", some "UC1"⟩ failedBatchWorld ⟨0, 0, []⟩ =
      .ok ⟨1, 1, [("r1", ⟨0, 0, 0⟩)]⟩ :=
  empty_batch_still_written 0 ⟨"r1", some "UC1"⟩ failedBatchWorld ⟨0, 0, []⟩
    "UC1" "PL1" (["v1"], 0) rfl (by decide) rfl (by decide) rfl (by decide)
    rfl

/-- C10: a long-form item with a statistics object is always counted, each
absent individual count contributing 0 via the `.get(…, 0)` default; an
item is skipped only when the duration field or the whole statistics object
is absent. -/
theorem missing_count_fields_included :
    (∀ (d : Nat) (s : Statistics) (rest : List VideoStats) (v l c : List Nat)
       (a b k : Nat),
       180 ≤ d → collectLongform rest = .ok (v, l, c) →
       s.viewCount.toVal = .ok a → s.likeCount.toVal = .ok b →
       s.commentCount.toVal = .ok k →
       collectLongform (⟨some (.valid d), some s⟩ :: rest) =
         .ok (a :: v, b :: l, k :: c)) ∧
    CountField.toVal .missing = .ok 0 ∧
    (∀ (stat : Option Statistics) (rest : List VideoStats),
       collectLongform (⟨none, stat⟩ :: rest) = collectLongform rest) ∧
    (∀ (d : Nat) (rest : List VideoStats), 180 ≤ d →
       collectLongform (⟨some (.valid d), none⟩ :: rest) =
         collectLongform rest) ∧
    collectLongform [⟨some (.valid 200), some ⟨.missing, .value 5, .value 2⟩⟩] =
      .ok ([0], [5], [2]) := by
  refine ⟨fun d s rest v l c a b k hd hrest hv hl hk => ?_,
    rfl, fun stat rest => ?_, fun d rest hd => ?_, rfl⟩
  · simp [collectLongform, is_longform, hd, hrest, hv, hl, hk]
  · simp [collectLongform]
  · simp [collectLongform, is_longform, hd]

/-- Witness for C10: a long-form item missing both view and like counts is
counted with zeros for the missing fields. -/
theorem missing_count_fields_included_witness :
    collectLongform [⟨some (.valid 300), some ⟨.missing, .missing, .value 7⟩⟩] =
      .ok ([0], [0], [7]) :=
  missing_count_fields_included.1 300 ⟨.missing, .missing, .value 7⟩ [] [] []
    [] 0 0 7 (by decide) rfl rfl rfl rfl

end Engagement
